import Mathlib

/-!
Shallow embedding of the `vgs2` sequential diagnostic engine
(`src/knowledge_base.py`, `src/inference_engine.py`, `src/entropy_engine.py`,
`src/csp_module.py`) over exact rational arithmetic.

Python floats are modelled by `ℚ`; the literal `1e-9` is modelled by the
rational `1 / 10^9`.  Python exceptions are modelled by `Except String`.
Python dicts holding string keys are modelled by association lists queried
with `List.lookup` (`dict.get(k, default)` becomes `(l.lookup k).getD default`).
-/

namespace VGS

/-- The numerical safeguard constant `1e-9` used by `update_beliefs`. -/
def eps : ℚ := 1 / 1000000000

/-! ## Knowledge base (`src/knowledge_base.py`) -/

/-- The populated probability table of `KnowledgeBase`:
`diseases`/`symptoms` mirror `self.diseases`/`self.symptoms`,
`condTbl` mirrors the nested dict `self.P_symptom_given_disease`,
`priorTbl` mirrors `self.P_disease`. -/
structure KB where
  diseases : List String
  symptoms : List String
  condTbl : List (String × List (String × ℚ))
  priorTbl : List (String × ℚ)

/-- Model of `KnowledgeBase.get_P_symptom_given_disease`:
`self.P_symptom_given_disease.get(disease, {}).get(symptom, 0.5)`. -/
def KB.get_P_symptom_given_disease (kb : KB) (disease symptom : String) : ℚ :=
  (((kb.condTbl.lookup disease).getD []).lookup symptom).getD (1 / 2)

/-- Model of `KnowledgeBase.get_P_disease`:
`self.P_disease.get(disease, 1.0 / len(self.diseases))`.
Python evaluates the default argument `1.0 / len(self.diseases)` eagerly, so
when the disease list is empty the call raises `ZeroDivisionError` even before
the dict is consulted; that exception is modelled by `none`. -/
def KB.get_P_disease (kb : KB) (disease : String) : Option ℚ :=
  if kb.diseases.length = 0 then none
  else some ((kb.priorTbl.lookup disease).getD (1 / (kb.diseases.length : ℚ)))

/-- One row of the input dataset: the prognosis label plus the symptom
columns.  A symptom column holds the 0/1 flags of the shape contract; a
missing cell reads as `0` (`df.fillna(0)`), modelled by `getD false`. -/
structure DRow where
  label : String
  vals : List (String × Bool)

/-- The 0/1 value of symptom column `s` in row `r` (missing cell = 0). -/
def DRow.val (r : DRow) (s : String) : Bool :=
  (r.vals.lookup s).getD false

/-- A loaded dataset: the symptom column names (every column except the
target/label column) and the rows. -/
structure Dataset where
  symptomCols : List String
  rows : List DRow

/-- Model of `load_dataset`: `self.diseases = sorted(self.df[self.target_col].unique())`
— the distinct labels, sorted ascending. -/
def Dataset.diseases (ds : Dataset) : List String :=
  List.insertionSort (· ≤ ·) (ds.rows.map DRow.label).dedup

/-- Number of rows carrying label `d` (`value_counts` / `len(subset)`). -/
def Dataset.diseaseCount (ds : Dataset) (d : String) : Nat :=
  ds.rows.countP (fun r => r.label = d)

/-- Number of rows with label `d` whose symptom column `s` is 1
(`subset[symptom].sum()` for a 0/1 column). -/
def Dataset.yesCount (ds : Dataset) (d s : String) : Nat :=
  (ds.rows.filter (fun r => r.label = d)).countP (fun r => r.val s)

/-- Model of `KnowledgeBase.compute_probabilities` with smoothing constant `α`:
`P_disease[d] = count(d)/N` and
`P_symptom_given_disease[d][s] = (count_yes + α) / (len(subset) + 2α)`. -/
def KB.build (ds : Dataset) (α : ℚ) : KB :=
  let dl := ds.diseases
  { diseases := dl
    symptoms := ds.symptomCols
    priorTbl := dl.map (fun d => (d, (ds.diseaseCount d : ℚ) / (ds.rows.length : ℚ)))
    condTbl := dl.map (fun d =>
      (d, ds.symptomCols.map (fun s =>
        (s, ((ds.yesCount d s : ℚ) + α) / ((ds.diseaseCount d : ℚ) + 2 * α))))) }

/-! ## Inference engine (`src/inference_engine.py`) -/

/-- Effectful map over a list: the Python `for` loop that appends one result
per element and aborts on the first exception raised in the loop body. -/
def mapE {α β : Type} (f : α → Except String β) : List α → Except String (List β)
  | [] => Except.ok []
  | a :: l =>
    match f a with
    | Except.error m => Except.error m
    | Except.ok b =>
      match mapE f l with
      | Except.error m => Except.error m
      | Except.ok bs => Except.ok (b :: bs)

/-- The body of the likelihood loop in `update_beliefs`: `likelihood` is set
only in the `user_response == 1` and `user_response == 0` branches, so for any
other response the subsequent `likelihoods.append(likelihood)` raises
`UnboundLocalError`. -/
def likelihoodOf (p : ℚ) (r : Int) : Except String ℚ :=
  if r = 1 then Except.ok p
  else if r = 0 then Except.ok (1 - p)
  else Except.error "UnboundLocalError: local variable likelihood referenced before assignment"

/-- Model of `InferenceEngine.update_beliefs` on an explicit posterior vector:
return unchanged on `-1`; otherwise build the per-disease likelihoods,
multiply them elementwise into the posteriors, add `1e-9` to every entry if
the raw mass is exactly zero, and renormalize. -/
def updateBeliefs (kb : KB) (diseases : List String) (post : List ℚ)
    (symptom : String) (r : Int) : Except String (List ℚ) :=
  if r = -1 then Except.ok post
  else
    match mapE (fun d => likelihoodOf (kb.get_P_symptom_given_disease d symptom) r) diseases with
    | Except.error m => Except.error m
    | Except.ok likelihoods =>
      let numerators := List.zipWith (· * ·) post likelihoods
      let numerators := if numerators.sum = 0 then numerators.map (· + eps) else numerators
      Except.ok (numerators.map (· / numerators.sum))

/-- The mutable state of an `InferenceEngine` instance. -/
structure Engine where
  kb : KB
  diseases : List String
  posteriors : List ℚ

/-- Model of `InferenceEngine.update_beliefs` as a state transformer: on success the
returned vector is also stored in `self.posteriors`; on an exception the
store `self.posteriors = ...` is never reached, so the state is unchanged. -/
def Engine.update_beliefs (e : Engine) (symptom : String) (r : Int) :
    Except String (List ℚ) × Engine :=
  match updateBeliefs e.kb e.diseases e.posteriors symptom r with
  | Except.ok post => (Except.ok post, { e with posteriors := post })
  | Except.error m => (Except.error m, e)

/-- A sequence of `update_beliefs` calls threading the posterior vector. -/
def updateSeq (kb : KB) (diseases : List String) :
    List ℚ → List (String × Int) → Except String (List ℚ)
  | post, [] => Except.ok post
  | post, (s, r) :: rest =>
    match updateBeliefs kb diseases post s r with
    | Except.error m => Except.error m
    | Except.ok p2 => updateSeq kb diseases p2 rest

/-- Contract of `np.argsort(v)`: a permutation of the indices `0, …, n-1`
that is ascending by value.  numpy's default sort (introsort) does not
specify the relative order of equal values — it is stable only below the
small-array insertion-sort cutoff — so the embedding treats every such
permutation as a possible result and the top-k theorem quantifies over
them. -/
def IsAscSortOf (v : List ℚ) (idx : List Nat) : Prop :=
  idx.Perm (List.range v.length) ∧
  idx.Pairwise (fun i j => v.getD i 0 ≤ v.getD j 0)

/-- One concrete result allowed by the `np.argsort` contract: the indices
sorted ascending by the lexicographic key (value, index), i.e. the stable
ascending argsort.  This is exactly numpy's output below the small-array
insertion-sort cutoff (the regime of the n = 2 counterexample below) and
for distinct values; no theorem relies on this tie order beyond that. -/
def argsort (v : List ℚ) : List Nat :=
  List.insertionSort
    (fun i j => v.getD i 0 < v.getD j 0 ∨ (v.getD i 0 = v.getD j 0 ∧ i ≤ j))
    (List.range v.length)

/-- Model of `InferenceEngine.get_top_diseases` for a given result `idx` of
`np.argsort(self.posteriors)`: reverse it (`[::-1]`), truncate to `top_k`,
and pair each selected index with its disease name and posterior
probability (indexing is in range in every real state; out-of-range reads
are totalized with defaults). -/
def get_top_diseases_from (idx : List Nat) (diseases : List String)
    (post : List ℚ) (k : Nat) : List (String × ℚ) :=
  (idx.reverse.take k).map (fun i => (diseases.getD i "", post.getD i 0))

/-- Model of `InferenceEngine.get_top_diseases` instantiated with the
stable-model argsort (exact in the counterexample's small-array regime). -/
def get_top_diseases (diseases : List String) (post : List ℚ) (k : Nat) :
    List (String × ℚ) :=
  get_top_diseases_from (argsort post) diseases post k

/-! ## Entropy engine (`src/entropy_engine.py`)

`np.log2` has no exact rational counterpart, so the definitions are
parametrized by an arbitrary `log2 : ℚ → ℚ`; every theorem below holds for
all such functions, so nothing depends on the numeric value of a logarithm. -/

/-- The entropy helper `-np.sum(p * np.log2(p))` over the strictly positive
entries of `p` (both `EntropyEngine.compute_expected_entropy`'s local helper
and `InferenceEngine.get_entropy`). -/
def entropyOf (log2 : ℚ → ℚ) (p : List ℚ) : ℚ :=
  -(((p.filter (fun x => 0 < x)).map (fun x => x * log2 x)).sum)

/-- The mutable state of an `EntropyEngine` instance: the wrapped inference
engine and the asked-symptom set (`self.asked_symptoms`). -/
structure EEngine where
  engine : Engine
  asked : List String

/-- Model of `EntropyEngine.get_unasked_symptoms`. -/
def EEngine.unasked (st : EEngine) : List String :=
  st.engine.kb.symptoms.filter (fun s => ¬ s ∈ st.asked)

/-- Model of `EntropyEngine.compute_expected_entropy`, threading the engine state it
reads: `priors` is a copy of the live posteriors, the hypothetical `post_yes`
and `post_no` vectors are fresh arrays, and nothing is written back. -/
def computeExpectedEntropy (log2 : ℚ → ℚ) (st : EEngine) (symptom : String) :
    ℚ × EEngine :=
  let priors := st.engine.posteriors
  let conds := st.engine.diseases.map
    (fun d => st.engine.kb.get_P_symptom_given_disease d symptom)
  let p_s1 := (List.zipWith (· * ·) priors conds).sum
  let p_s0 := 1 - p_s1
  let post_yes := List.zipWith (· * ·) priors conds
  let post_yes := post_yes.map (· / (post_yes.sum + eps))
  let post_no := List.zipWith (fun p c => p * (1 - c)) priors conds
  let post_no := post_no.map (· / (post_no.sum + eps))
  (p_s1 * entropyOf log2 post_yes + p_s0 * entropyOf log2 post_no, st)

/-- One iteration of the candidate loop in
`EntropyEngine.select_next_symptom`: compute the expected entropy of `s` on
the threaded engine state and keep the larger information gain. -/
def selStep (log2 : ℚ → ℚ) (currentEntropy : ℚ)
    (acc : Option String × Option ℚ × EEngine) (s : String) :
    Option String × Option ℚ × EEngine :=
  let r := computeExpectedEntropy log2 acc.2.2 s
  let ig := currentEntropy - r.1
  match acc.2.1 with
  | none => (some s, some ig, r.2)
  | some g => if g < ig then (some s, some ig, r.2) else (acc.1, some g, r.2)

/-- Model of `EntropyEngine.select_next_symptom`: greedy maximization of
`IG = current_entropy - H_exp` over the unasked symptoms.  `best_gain`
starts at `-np.inf`, modelled by `none`, so the first candidate always
replaces it. -/
def selectNextSymptom (log2 : ℚ → ℚ) (st : EEngine) :
    (Option String × Option ℚ) × EEngine :=
  let res := st.unasked.foldl
    (selStep log2 (entropyOf log2 st.engine.posteriors)) (none, none, st)
  ((res.1, res.2.1), res.2.2)

/-! ## Constraint module (`src/csp_module.py`) -/

/-- The state of a `CSPModule` instance: the known identifier sets and the
ordered constraint list of `(a, relation, b)` triples. -/
structure CSP where
  symptomList : List String
  diseaseList : List String
  constraints : List (String × String × String)

/-- Model of `CSPModule.__init__` from a knowledge base, with no constraints yet. -/
def CSP.init (kb : KB) : CSP :=
  { symptomList := kb.symptoms, diseaseList := kb.diseases, constraints := [] }

/-- Model of `CSPModule._check_symptom_exists` followed by the rest of an `add_*`
body: `ValueError` when the name is unknown. -/
def CSP.add_dependency (c : CSP) (cause effect : String) : Except String CSP :=
  if ¬ cause ∈ c.symptomList then
    Except.error ("Symptom " ++ cause ++ " not found in KB symptom list.")
  else if ¬ effect ∈ c.symptomList then
    Except.error ("Symptom " ++ effect ++ " not found in KB symptom list.")
  else Except.ok { c with constraints := c.constraints ++ [(cause, "->", effect)] }

/-- Model of `CSPModule.add_mutual_exclusion`. -/
def CSP.add_mutual_exclusion (c : CSP) (s1 s2 : String) : Except String CSP :=
  if ¬ s1 ∈ c.symptomList then
    Except.error ("Symptom " ++ s1 ++ " not found in KB symptom list.")
  else if ¬ s2 ∈ c.symptomList then
    Except.error ("Symptom " ++ s2 ++ " not found in KB symptom list.")
  else Except.ok { c with constraints := c.constraints ++ [(s1, "XOR", s2)] }

/-- Model of `CSPModule.add_required_symptom_for_disease`. -/
def CSP.add_required_symptom_for_disease (c : CSP) (symptom disease : String) :
    Except String CSP :=
  if ¬ symptom ∈ c.symptomList then
    Except.error ("Symptom " ++ symptom ++ " not found in KB symptom list.")
  else if ¬ disease ∈ c.diseaseList then
    Except.error ("Disease " ++ disease ++ " not found in KB disease list.")
  else Except.ok { c with constraints := c.constraints ++ [(disease, "requires", symptom)] }

/-- The per-constraint body of the evaluation loop in
`CSPModule.is_valid_state`: the list of violations this constraint
contributes, or the `RuntimeError` raised on an unknown relation. -/
def checkConstraint (relevant : List (String × Int)) (t : String × String × String) :
    Except String (List String) :=
  if t.2.1 = "->" then
    Except.ok (if (relevant.lookup t.1).getD 0 = 1 ∧ (relevant.lookup t.2.2).getD 0 = 0 then
      ["Violation: " ++ t.1 ++ "=1 requires " ++ t.2.2 ++ "=1"] else [])
  else if t.2.1 = "XOR" then
    Except.ok (if (relevant.lookup t.1).getD 0 = 1 ∧ (relevant.lookup t.2.2).getD 0 = 1 then
      ["Violation: " ++ t.1 ++ " and " ++ t.2.2 ++ " cannot both be 1"] else [])
  else if t.2.1 = "requires" then
    Except.ok (if (relevant.lookup t.1).getD 0 = 1 ∧ (relevant.lookup t.2.2).getD 0 = 0 then
      ["Violation: disease " ++ t.1 ++ " requires symptom " ++ t.2.2 ++ "=1"] else [])
  else Except.error ("Unknown constraint relation " ++ t.2.1 ++ " in constraint")

/-- Model of `CSPModule.is_valid_state`: filter the assignment down to known keys,
collect every constraint's violations (raising on an unknown relation), and
return `(len(violations) == 0, violations)`. -/
def CSP.is_valid_state (c : CSP) (symptomValues : List (String × Int)) :
    Except String (Bool × List String) :=
  let relevant := symptomValues.filter
    (fun kv => kv.1 ∈ c.symptomList ∨ kv.1 ∈ c.diseaseList)
  match mapE (checkConstraint relevant) c.constraints with
  | Except.error m => Except.error m
  | Except.ok vss =>
    let violations := vss.flatten
    Except.ok (violations.isEmpty, violations)

/-- Modelled from the spec: `check_consistency` is called from `main.py` but
its implementation is absent from `src/src/csp_module.py`.  Spec §4.4: a
static analysis over the registered constraint set alone, taking no
assignment, that must detect at minimum the direct contradictions — an
implication and a mutual-exclusion both registered between the same ordered
pair — and reports `(ok, issues)`. -/
def CSP.check_consistency (c : CSP) : Bool × List String :=
  let issues := c.constraints.filterMap (fun t =>
    if t.2.1 = "->" ∧ (t.1, "XOR", t.2.2) ∈ c.constraints then
      some ("Direct contradiction: implication " ++ t.1 ++ " -> " ++ t.2.2 ++
        " conflicts with mutual exclusion of " ++ t.1 ++ " and " ++ t.2.2)
    else none)
  (issues.isEmpty, issues)

/-- One registration call on a `CSPModule` (the three public `add_*` ops). -/
inductive RegOp : Type
  | dep (cause effect : String)
  | mutex (s1 s2 : String)
  | req (symptom disease : String)

/-- Apply one registration call; a raised `ValueError` leaves the module
unchanged (the append happens only after validation). -/
def applyReg (c : CSP) (op : RegOp) : CSP :=
  match op with
  | RegOp.dep a b => match c.add_dependency a b with
    | Except.ok c2 => c2
    | Except.error _ => c
  | RegOp.mutex a b => match c.add_mutual_exclusion a b with
    | Except.ok c2 => c2
    | Except.error _ => c
  | RegOp.req s d => match c.add_required_symptom_for_disease s d with
    | Except.ok c2 => c2
    | Except.error _ => c

/-- Apply a sequence of registration calls. -/
def applyRegs (c : CSP) (ops : List RegOp) : CSP :=
  ops.foldl applyReg c

/-! ## Concrete fixtures used by witnesses and counterexamples -/

/-- The two-disease table of the spec's worked example: priors `[0.6, 0.4]`
over diseases `[A, B]`, `conditional(A, fever) = 0.9`,
`conditional(B, fever) = 0.2`. -/
def kbAB : KB :=
  { diseases := ["A", "B"]
    symptoms := ["fever"]
    condTbl := [("A", [("fever", 9 / 10)]), ("B", [("fever", 1 / 5)])]
    priorTbl := [("A", 3 / 5), ("B", 2 / 5)] }

/-- A dataset with one row (label `flu`, fever present) and one with no rows. -/
def dsOneRow : Dataset :=
  { symptomCols := ["fever"], rows := [{ label := "flu", vals := [("fever", true)] }] }

/-- The empty dataset with the symptom column present but no rows. -/
def dsEmpty : Dataset :=
  { symptomCols := ["fever"], rows := [] }

/-! ## Helper lemmas -/

theorem mapE_ok {α β : Type} (f : α → Except String β) (g : α → β)
    (h : ∀ a, f a = Except.ok (g a)) :
    ∀ l : List α, mapE f l = Except.ok (l.map g) := by
  intro l
  induction l with
  | nil => rfl
  | cons a l ih => simp [mapE, h a, ih]

theorem mapE_ok_of_forall {α β : Type} (f : α → Except String β) :
    ∀ l : List α, (∀ a ∈ l, ∃ b, f a = Except.ok b) →
      ∃ bs, mapE f l = Except.ok bs := by
  intro l
  induction l with
  | nil => exact fun _ => ⟨[], rfl⟩
  | cons a l ih =>
    intro h
    obtain ⟨b, hb⟩ := h a (by simp)
    obtain ⟨bs, hbs⟩ := ih (fun x hx => h x (by simp [hx]))
    exact ⟨b :: bs, by simp [mapE, hb, hbs]⟩

theorem sum_map_div (l : List ℚ) (c : ℚ) :
    (l.map (fun x => x / c)).sum = l.sum / c := by
  induction l with
  | nil => simp
  | cons a l ih => simp [ih, add_div]

theorem sum_map_add_const (l : List ℚ) (c : ℚ) :
    (l.map (fun x => x + c)).sum = l.sum + l.length * c := by
  induction l with
  | nil => simp
  | cons a l ih => simp [ih]; ring

/-! ## Claims about the inference engine -/

/-- Claim C6: `update_beliefs` with response `-1` (unknown) is a no-op: it
returns the stored posterior vector unchanged, without renormalization, and
it is not an error; the engine state is exactly what it was. -/
theorem c6_update_unknown_is_noop (e : Engine) (s : String) :
    (e.update_beliefs s (-1)).1 = Except.ok e.posteriors ∧
    (e.update_beliefs s (-1)).2 = e := by
  constructor <;> simp [Engine.update_beliefs, updateBeliefs]

/-- Claim C3: for responses 0 and 1, `update_beliefs` multiplies each
disease's current belief by the likelihood `conditional(d, s)` (response 1)
or `1 - conditional(d, s)` (response 0) and renormalizes by the total mass
(stated here away from the zero-mass safeguard branch). -/
theorem c3_update_is_bayes_multiply (kb : KB) (ds : List String) (post : List ℚ)
    (s : String)
    (h1 : (List.zipWith (· * ·) post
      (ds.map (fun d => kb.get_P_symptom_given_disease d s))).sum ≠ 0)
    (h0 : (List.zipWith (· * ·) post
      (ds.map (fun d => 1 - kb.get_P_symptom_given_disease d s))).sum ≠ 0) :
    updateBeliefs kb ds post s 1 =
      Except.ok ((List.zipWith (· * ·) post
        (ds.map (fun d => kb.get_P_symptom_given_disease d s))).map
        (· / (List.zipWith (· * ·) post
          (ds.map (fun d => kb.get_P_symptom_given_disease d s))).sum)) ∧
    updateBeliefs kb ds post s 0 =
      Except.ok ((List.zipWith (· * ·) post
        (ds.map (fun d => 1 - kb.get_P_symptom_given_disease d s))).map
        (· / (List.zipWith (· * ·) post
          (ds.map (fun d => 1 - kb.get_P_symptom_given_disease d s))).sum)) := by
  constructor
  · rw [updateBeliefs, if_neg (by decide),
      mapE_ok (g := fun d => kb.get_P_symptom_given_disease d s)
        (h := fun d => by simp [likelihoodOf])]
    simp [h1]
  · rw [updateBeliefs, if_neg (by decide),
      mapE_ok (g := fun d => 1 - kb.get_P_symptom_given_disease d s)
        (h := fun d => by simp [likelihoodOf])]
    simp [h0]

/-- Witness for C3: the spec's worked example.  With priors `[0.6, 0.4]` over
`[A, B]` and `conditional(A, fever) = 0.9`, `conditional(B, fever) = 0.2`,
after `update(fever, 1)` the posterior is `[27/31, 4/31] ≈ [0.871, 0.129]`. -/
theorem c3_update_is_bayes_multiply_witness :
    updateBeliefs kbAB ["A", "B"] [3 / 5, 2 / 5] "fever" 1 =
      Except.ok [27 / 31, 4 / 31] ∧
    |(27 : ℚ) / 31 - 871 / 1000| < 1 / 1000 := by
  constructor
  · have h := (c3_update_is_bayes_multiply kbAB ["A", "B"] [3 / 5, 2 / 5] "fever"
      (by norm_num [kbAB, KB.get_P_symptom_given_disease, List.lookup])
      (by norm_num [kbAB, KB.get_P_symptom_given_disease, List.lookup])).1
    rw [h]
    norm_num [kbAB, KB.get_P_symptom_given_disease, List.lookup]
  · rw [abs_sub_lt_iff]
    norm_num

/-- Claim C10: with at least one disease, a response outside `{-1, 0, 1}`
makes `update_beliefs` raise (the `likelihood` local is never assigned, so
the first `append` fails) and leaves the stored posterior vector unchanged;
for responses in `{-1, 0, 1}` that error branch is unreachable. -/
theorem c10_invalid_response_raises (e : Engine) (s : String) (r : Int)
    (hds : e.diseases ≠ []) (hm1 : r ≠ -1) (h0 : r ≠ 0) (h1 : r ≠ 1) :
    (∃ m, (e.update_beliefs s r).1 = Except.error m) ∧
    (e.update_beliefs s r).2 = e ∧
    (∀ r2 : Int, r2 = -1 ∨ r2 = 0 ∨ r2 = 1 →
      ∃ l, (e.update_beliefs s r2).1 = Except.ok l) := by
  obtain ⟨d, ds, hcons⟩ := List.exists_cons_of_ne_nil hds
  have herr : updateBeliefs e.kb e.diseases e.posteriors s r =
      Except.error "UnboundLocalError: local variable likelihood referenced before assignment" := by
    rw [updateBeliefs, if_neg hm1, hcons]
    simp [mapE, likelihoodOf, h0, h1]
  refine ⟨⟨"UnboundLocalError: local variable likelihood referenced before assignment",
      by simp [Engine.update_beliefs, herr]⟩,
    by simp [Engine.update_beliefs, herr], ?_⟩
  rintro r2 (rfl | rfl | rfl)
  · exact ⟨e.posteriors, by simp [Engine.update_beliefs, updateBeliefs]⟩
  · rw [Engine.update_beliefs, updateBeliefs, if_neg (by decide),
      mapE_ok (g := fun d => 1 - e.kb.get_P_symptom_given_disease d s)
        (h := fun d => by simp [likelihoodOf])]
    exact ⟨_, rfl⟩
  · rw [Engine.update_beliefs, updateBeliefs, if_neg (by decide),
      mapE_ok (g := fun d => e.kb.get_P_symptom_given_disease d s)
        (h := fun d => by simp [likelihoodOf])]
    exact ⟨_, rfl⟩

/-- Witness for C10 at a concrete engine and the invalid response `2`. -/
theorem c10_invalid_response_raises_witness :
    (∃ m, (Engine.update_beliefs ⟨kbAB, ["A", "B"], [3 / 5, 2 / 5]⟩ "fever" 2).1 =
      Except.error m) ∧
    (Engine.update_beliefs ⟨kbAB, ["A", "B"], [3 / 5, 2 / 5]⟩ "fever" 2).2 =
      ⟨kbAB, ["A", "B"], [3 / 5, 2 / 5]⟩ := by
  have h := c10_invalid_response_raises ⟨kbAB, ["A", "B"], [3 / 5, 2 / 5]⟩ "fever" 2
    (by simp) (by decide) (by decide) (by decide)
  exact ⟨h.1, h.2.1⟩

/-! ## Claims about the knowledge base lookups -/

/-- Claim C9 (amended): on any table with at least one disease, lookups never
fail: `conditional` returns `0.5` when the disease row or the symptom entry
is missing, and `prior` returns the uniform `1/|diseases|` when the disease
is not stored.  (On a table with no diseases, `prior` lookup raises
`ZeroDivisionError` — see the counterexample.) -/
theorem c9_lookup_defaults (kb : KB) (h : kb.diseases ≠ []) :
    (∀ d s, kb.condTbl.lookup d = none →
      kb.get_P_symptom_given_disease d s = 1 / 2) ∧
    (∀ d s l, kb.condTbl.lookup d = some l → l.lookup s = none →
      kb.get_P_symptom_given_disease d s = 1 / 2) ∧
    (∀ d, kb.priorTbl.lookup d = none →
      kb.get_P_disease d = some (1 / (kb.diseases.length : ℚ))) ∧
    (∀ d, ∃ q, kb.get_P_disease d = some q) := by
  have hlen : kb.diseases.length ≠ 0 := by
    simpa [List.length_eq_zero] using h
  refine ⟨fun d s hd => ?_, fun d s l hd hs => ?_, fun d hd => ?_, fun d => ?_⟩
  · simp [KB.get_P_symptom_given_disease, hd]
  · simp [KB.get_P_symptom_given_disease, hd, hs]
  · simp [KB.get_P_disease, hlen, hd]
  · exact ⟨_, by rw [KB.get_P_disease, if_neg hlen]⟩

/-- Witness for C9 on a table built from a one-row dataset, queried with
identifiers unknown to it. -/
theorem c9_lookup_defaults_witness :
    (KB.build dsOneRow 1).get_P_symptom_given_disease "measles" "cough" = 1 / 2 ∧
    (KB.build dsOneRow 1).get_P_disease "measles" = some 1 := by
  have hne : (KB.build dsOneRow 1).diseases ≠ [] := by
    norm_num [KB.build, dsOneRow, Dataset.diseases, List.insertionSort, List.orderedInsert]
  have h := c9_lookup_defaults (KB.build dsOneRow 1) hne
  constructor
  · exact h.1 "measles" "cough"
      (by simp [KB.build, dsOneRow, Dataset.diseases, List.insertionSort,
        List.orderedInsert, List.lookup])
  · have := h.2.2.1 "measles"
      (by simp [KB.build, dsOneRow, Dataset.diseases, List.insertionSort,
        List.orderedInsert, List.lookup])
    rw [this]
    norm_num [KB.build, dsOneRow, Dataset.diseases, List.insertionSort, List.orderedInsert]

/-- Counterexample for C9 as stated: on the table built from a dataset with
the label column present but no rows, there are no diseases, and
`get_P_disease` evaluates `1.0 / len(self.diseases)` eagerly, raising
`ZeroDivisionError` (modelled by `none`) — the lookup does fail. -/
theorem c9_cex_empty_table_prior_raises :
    (KB.build dsEmpty 1).get_P_disease "flu" = none := by
  norm_num [KB.build, KB.get_P_disease, dsEmpty, Dataset.diseases, List.insertionSort]

/-! ## Normalization invariant -/

theorem updateBeliefs_ok_sum_one (kb : KB) (ds : List String) (post : List ℚ)
    (s : String) (r : Int) (hr : r = 0 ∨ r = 1)
    (hne : ds ≠ []) (hlen : post.length = ds.length) :
    ∃ res, updateBeliefs kb ds post s r = Except.ok res ∧
      res.sum = 1 ∧ res.length = ds.length := by
  have hm1 : r ≠ -1 := by rcases hr with rfl | rfl <;> decide
  have hmap : ∃ lik : List ℚ,
      mapE (fun d => likelihoodOf (kb.get_P_symptom_given_disease d s) r) ds =
        Except.ok lik ∧ lik.length = ds.length := by
    rcases hr with rfl | rfl
    · exact ⟨_, mapE_ok (fun d => likelihoodOf (kb.get_P_symptom_given_disease d s) 0)
        (fun d => 1 - kb.get_P_symptom_given_disease d s)
        (fun d => by simp [likelihoodOf]) ds, by simp⟩
    · exact ⟨_, mapE_ok (fun d => likelihoodOf (kb.get_P_symptom_given_disease d s) 1)
        (fun d => kb.get_P_symptom_given_disease d s)
        (fun d => by simp [likelihoodOf]) ds, by simp⟩
  obtain ⟨lik, hmap, hlik⟩ := hmap
  set nums := List.zipWith (· * ·) post lik with hnums
  have hnlen : nums.length = ds.length := by
    simp [hnums, hlen, hlik]
  have heq : updateBeliefs kb ds post s r =
      Except.ok ((if nums.sum = 0 then nums.map (· + eps) else nums).map
        (· / (if nums.sum = 0 then nums.map (· + eps) else nums).sum)) := by
    rw [updateBeliefs, if_neg hm1, hmap]
  by_cases hz : nums.sum = 0
  · rw [if_pos hz] at heq
    have hlenpos : 0 < ds.length := List.length_pos.mpr hne
    have hsum2 : (nums.map (· + eps)).sum = (ds.length : ℚ) * eps := by
      rw [sum_map_add_const, hz, hnlen]
      ring
    have hne2 : (nums.map (· + eps)).sum ≠ 0 := by
      rw [hsum2]
      exact mul_ne_zero (by exact_mod_cast hlenpos.ne') (by norm_num [eps])
    refine ⟨_, heq, ?_, ?_⟩
    · rw [sum_map_div]
      exact div_self hne2
    · simp [hnlen]
  · rw [if_neg hz] at heq
    refine ⟨_, heq, ?_, ?_⟩
    · rw [sum_map_div]
      exact div_self hz
    · simp [hnlen]

/-- Claim C4: for every initial belief vector summing to 1 and every finite
sequence of updates with responses in `{0, 1}`, the posterior still sums to
exactly 1; when the raw mass would be zero the `1e-9` safeguard is added to
every entry before normalizing, so division by zero never occurs. -/
theorem c4_posterior_sums_to_one (kb : KB) (ds : List String) (post : List ℚ)
    (steps : List (String × Int)) (hne : ds ≠ [])
    (hlen : post.length = ds.length) (hsum : post.sum = 1)
    (hsteps : ∀ x ∈ steps, x.2 = 0 ∨ x.2 = 1) :
    ∃ res, updateSeq kb ds post steps = Except.ok res ∧
      res.sum = 1 ∧ res.length = ds.length := by
  induction steps generalizing post with
  | nil => exact ⟨post, rfl, hsum, hlen⟩
  | cons sr rest ih =>
    obtain ⟨p2, hok, hs2, hl2⟩ := updateBeliefs_ok_sum_one kb ds post sr.1 sr.2
      (hsteps sr (by simp)) hne hlen
    obtain ⟨res, hres, hrs, hrl⟩ := ih p2 hl2 hs2 (fun x hx => hsteps x (by simp [hx]))
    exact ⟨res, by rw [updateSeq, hok]; exact hres, hrs, hrl⟩

/-- Witness for C4: two updates on the worked example still sum to 1. -/
theorem c4_posterior_sums_to_one_witness :
    ∃ res, updateSeq kbAB ["A", "B"] [3 / 5, 2 / 5] [("fever", 1), ("fever", 0)] =
      Except.ok res ∧ res.sum = 1 ∧ res.length = 2 := by
  exact c4_posterior_sums_to_one kbAB ["A", "B"] [3 / 5, 2 / 5]
    [("fever", 1), ("fever", 0)] (by simp) (by simp) (by norm_num)
    (by intro x hx; simp only [List.mem_cons, List.not_mem_nil, or_false] at hx
        rcases hx with rfl | rfl <;> simp)

/-! ## Claims about table construction -/

theorem sum_map_add_pointwise {α : Type} (l : List α) (f g : α → ℚ) :
    (l.map (fun a => f a + g a)).sum = (l.map f).sum + (l.map g).sum := by
  induction l with
  | nil => simp
  | cons a l ih => simp [ih]; ring

theorem sum_map_indicator (l : List String) (a : String) (h : l.Nodup) (ha : a ∈ l) :
    (l.map (fun d => if a = d then (1 : ℚ) else 0)).sum = 1 := by
  induction l with
  | nil => simp at ha
  | cons b l ih =>
    rcases List.mem_cons.mp ha with rfl | ha2
    · have hnot : ∀ d ∈ l, ¬ a = d := by
        intro d hd heq
        exact (List.nodup_cons.mp h).1 (heq ▸ hd)
      have hzero : (l.map (fun d => if a = d then (1 : ℚ) else 0)).sum = 0 := by
        rw [List.sum_eq_zero]
        intro x hx
        obtain ⟨d, hd, rfl⟩ := List.mem_map.mp hx
        simp [hnot d hd]
      simp [hzero]
    · have hne : ¬ a = b := by
        intro heq
        exact (List.nodup_cons.mp h).1 (heq ▸ ha2)
      simp [hne, ih (List.nodup_cons.mp h).2 ha2]

theorem sum_map_count_labels (rows : List DRow) (dl : List String)
    (hnd : dl.Nodup) (hc : ∀ r ∈ rows, r.label ∈ dl) :
    (dl.map (fun d => ((rows.countP (fun r => r.label = d) : Nat) : ℚ))).sum =
      (rows.length : ℚ) := by
  induction rows with
  | nil => simp
  | cons r rows ih =>
    have hstep : ∀ d : String,
        (((r :: rows).countP (fun x => x.label = d) : Nat) : ℚ) =
          ((rows.countP (fun x => x.label = d) : Nat) : ℚ) +
            (if r.label = d then (1 : ℚ) else 0) := by
      intro d
      rw [List.countP_cons]
      by_cases hd : r.label = d <;> simp [hd]
    calc (dl.map (fun d => (((r :: rows).countP (fun x => x.label = d) : Nat) : ℚ))).sum
        = (dl.map (fun d => ((rows.countP (fun x => x.label = d) : Nat) : ℚ) +
            (if r.label = d then (1 : ℚ) else 0))).sum := by
          exact congrArg List.sum (List.map_congr_left (fun d _ => hstep d))
      _ = (dl.map (fun d => ((rows.countP (fun x => x.label = d) : Nat) : ℚ))).sum +
            (dl.map (fun d => if r.label = d then (1 : ℚ) else 0)).sum :=
          sum_map_add_pointwise dl _ _
      _ = (rows.length : ℚ) + 1 := by
          rw [ih (fun x hx => hc x (by simp [hx])),
            sum_map_indicator dl r.label hnd (hc r (by simp))]
      _ = ((r :: rows).length : ℚ) := by
          rw [List.length_cons]
          push_cast
          ring

theorem diseases_nodup (ds : Dataset) : ds.diseases.Nodup :=
  ((List.perm_insertionSort _ _).nodup_iff).mpr (List.nodup_dedup _)

theorem label_mem_diseases (ds : Dataset) (r : DRow) (hr : r ∈ ds.rows) :
    r.label ∈ ds.diseases := by
  rw [Dataset.diseases, List.mem_insertionSort, List.mem_dedup]
  exact List.mem_map_of_mem DRow.label hr

/-- Claim C5 (amended): for every table built with the default smoothing
`α = 1` from a dataset with at least one row, the disease priors sum to
exactly 1 and every stored conditional probability
`(count(s=1 ∧ label=d) + 1) / (count(label=d) + 2)` lies strictly between
0 and 1.  (A dataset with zero rows yields zero diseases and priors summing
to 0 — see the counterexample.) -/
theorem c5_priors_sum_one_conditionals_in_unit (ds : Dataset) (h : ds.rows ≠ []) :
    ((KB.build ds 1).priorTbl.map Prod.snd).sum = 1 ∧
    (∀ pr ∈ (KB.build ds 1).condTbl, ∀ e ∈ pr.2, 0 < e.2 ∧ e.2 < 1) := by
  constructor
  · have hlen : ((ds.rows.length : Nat) : ℚ) ≠ 0 := by
      exact_mod_cast (fun hz => h (List.length_eq_zero.mp hz))
    have hcount : (ds.diseases.map
        (fun d => ((ds.rows.countP (fun r => r.label = d) : Nat) : ℚ))).sum =
        (ds.rows.length : ℚ) :=
      sum_map_count_labels ds.rows ds.diseases (diseases_nodup ds)
        (fun r hr => label_mem_diseases ds r hr)
    calc ((KB.build ds 1).priorTbl.map Prod.snd).sum
        = (ds.diseases.map (fun d =>
            ((ds.diseaseCount d : Nat) : ℚ) / (ds.rows.length : ℚ))).sum := by
          rw [KB.build]
          rw [List.map_map]
          rfl
      _ = (ds.diseases.map (fun d =>
            ((ds.diseaseCount d : Nat) : ℚ))).sum / (ds.rows.length : ℚ) := by
          rw [← sum_map_div, List.map_map]
          rfl
      _ = 1 := by
          rw [show (fun d => ((ds.diseaseCount d : Nat) : ℚ)) =
              (fun d => ((ds.rows.countP (fun r => r.label = d) : Nat) : ℚ)) from rfl,
            hcount, div_self hlen]
  · intro pr hpr e he
    obtain ⟨d, _, rfl⟩ := List.mem_map.mp hpr
    obtain ⟨s, _, rfl⟩ := List.mem_map.mp he
    have hyes : ds.yesCount d s ≤ ds.diseaseCount d := by
      have h1 : ds.yesCount d s ≤ (ds.rows.filter (fun r => r.label = d)).length :=
        List.countP_le_length _
      have h2 : (ds.rows.filter (fun r => r.label = d)).length = ds.diseaseCount d :=
        (List.countP_eq_length_filter _ _).symm
      exact h2 ▸ h1
    have hden : (0 : ℚ) < (ds.diseaseCount d : ℚ) + 2 * 1 := by
      positivity
    constructor
    · apply div_pos ?_ hden
      positivity
    · rw [div_lt_one hden]
      have : ((ds.yesCount d s : Nat) : ℚ) ≤ ((ds.diseaseCount d : Nat) : ℚ) := by
        exact_mod_cast hyes
      linarith

/-- Witness for C5 on the one-row dataset. -/
theorem c5_priors_sum_one_conditionals_in_unit_witness :
    ((KB.build dsOneRow 1).priorTbl.map Prod.snd).sum = 1 ∧
    (∀ pr ∈ (KB.build dsOneRow 1).condTbl, ∀ e ∈ pr.2, 0 < e.2 ∧ e.2 < 1) :=
  c5_priors_sum_one_conditionals_in_unit dsOneRow (by simp [dsOneRow])

/-- Counterexample for C5 as stated: the claim quantifies over datasets with
any number of rows, but on the dataset with zero rows (label column present)
the constructed table has no diseases and its priors sum to 0, not 1. -/
theorem c5_cex_empty_dataset_priors_sum_zero :
    ((KB.build dsEmpty 1).priorTbl.map Prod.snd).sum ≠ 1 := by
  norm_num [KB.build, dsEmpty, Dataset.diseases, List.insertionSort]

/-! ## Claims about top-k selection -/

theorem argsort_sorted (post : List ℚ) :
    List.Sorted
      (fun i j => post.getD i 0 < post.getD j 0 ∨
        (post.getD i 0 = post.getD j 0 ∧ i ≤ j))
      (argsort post) := by
  haveI htot : IsTotal ℕ (fun i j => post.getD i 0 < post.getD j 0 ∨
      (post.getD i 0 = post.getD j 0 ∧ i ≤ j)) := by
    constructor
    intro i j
    rcases lt_trichotomy (post.getD i 0) (post.getD j 0) with hlt | heq | hgt
    · exact Or.inl (Or.inl hlt)
    · rcases Nat.le_total i j with hij | hji
      · exact Or.inl (Or.inr ⟨heq, hij⟩)
      · exact Or.inr (Or.inr ⟨heq.symm, hji⟩)
    · exact Or.inr (Or.inl hgt)
  haveI htrans : IsTrans ℕ (fun i j => post.getD i 0 < post.getD j 0 ∨
      (post.getD i 0 = post.getD j 0 ∧ i ≤ j)) := by
    constructor
    rintro i j k (hij | ⟨hij, hij2⟩) (hjk | ⟨hjk, hjk2⟩)
    · exact Or.inl (hij.trans hjk)
    · exact Or.inl (hjk ▸ hij)
    · exact Or.inl (hij ▸ hjk)
    · exact Or.inr ⟨hij.trans hjk, hij2.trans hjk2⟩
  exact List.sorted_insertionSort _ _

/-- Claim C2 (amended): for every index order satisfying `np.argsort`'s
contract — an ascending-by-value permutation of the indices; numpy's
default sort does not specify the order of equal values — the top-k
selection built from it lists the k diseases of highest posterior in
non-increasing (not strictly descending) probability order: consecutive
output probabilities never increase, every selected index's posterior is
at least every unselected one's, and selected plus unselected indices are
exactly the index range.  The tie-break among equal posteriors is whatever
the sort produced, not the stable original-disease-list order (see the
counterexample); the stable-model `argsort` is one valid index order. -/
theorem c2_top_k_nonincreasing_for_any_argsort (diseases : List String)
    (post : List ℚ) (k : Nat) (idx : List Nat) (h : IsAscSortOf post idx) :
    get_top_diseases_from idx diseases post k =
      (idx.reverse.take k).map (fun i => (diseases.getD i "", post.getD i 0)) ∧
    (get_top_diseases_from idx diseases post k).Pairwise
      (fun p q => q.2 ≤ p.2) ∧
    (∀ i ∈ idx.reverse.take k, ∀ j ∈ idx.reverse.drop k,
      post.getD j 0 ≤ post.getD i 0) ∧
    (idx.reverse.take k ++ idx.reverse.drop k).Perm (List.range post.length) ∧
    IsAscSortOf post (argsort post) := by
  obtain ⟨hperm, hpair⟩ := h
  have hrev : idx.reverse.Pairwise (fun i j => post.getD j 0 ≤ post.getD i 0) :=
    List.pairwise_reverse.mpr hpair
  refine ⟨rfl, ?_, ?_, ?_, ?_, ?_⟩
  · exact List.pairwise_map.mpr (List.Pairwise.sublist (List.take_sublist k _) hrev)
  · have hsplit := hrev
    rw [← List.take_append_drop k idx.reverse, List.pairwise_append] at hsplit
    exact hsplit.2.2
  · rw [List.take_append_drop]
    exact (List.reverse_perm idx).trans hperm
  · exact List.perm_insertionSort _ _
  · exact (argsort_sorted post).imp
      (fun hij => hij.elim le_of_lt (fun he => le_of_eq he.1))

/-- Witness for C2 at the equal-posterior instance: `[0, 1]` is a valid
ascending argsort of `[1/2, 1/2]`, and the top-2 output built from it is
non-increasing in probability. -/
theorem c2_top_k_nonincreasing_for_any_argsort_witness :
    IsAscSortOf [(1 : ℚ) / 2, 1 / 2] [0, 1] ∧
    (get_top_diseases_from [0, 1] ["A", "B"] [(1 : ℚ) / 2, 1 / 2] 2).Pairwise
      (fun p q => q.2 ≤ p.2) := by
  have h : IsAscSortOf [(1 : ℚ) / 2, 1 / 2] [0, 1] := by
    constructor
    · norm_num [List.range_succ]
    · norm_num [List.pairwise_cons]
  exact ⟨h, (c2_top_k_nonincreasing_for_any_argsort ["A", "B"]
    [(1 : ℚ) / 2, 1 / 2] 2 [0, 1] h).2.1⟩

/-- Counterexample for C2 as stated: with equal posteriors `[1/2, 1/2]` over
the disease list `[A, B]`, the top-2 output lists `B` first — here numpy's
sort (a 2-element array, inside its stable insertion-sort regime, exactly
the `argsort` model) leaves the equal pair in place and the `[::-1]`
reversal puts `B` before `A`, so equal probabilities do not come out in the
stable original-disease-list order the claim asserts. -/
theorem c2_cex_equal_posteriors_come_out_reversed :
    get_top_diseases ["A", "B"] [1 / 2, 1 / 2] 2 =
      [("B", 1 / 2), ("A", 1 / 2)] ∧
    [("B", (1 : ℚ) / 2), ("A", 1 / 2)] ≠ [("A", 1 / 2), ("B", 1 / 2)] := by
  constructor
  · norm_num [get_top_diseases, get_top_diseases_from, argsort,
      List.insertionSort, List.orderedInsert, List.range_succ]
  · simp

/-! ## Claims about the entropy engine -/

theorem selStep_preserves_state (log2 : ℚ → ℚ) (ce : ℚ)
    (acc : Option String × Option ℚ × EEngine) (s : String) :
    (selStep log2 ce acc s).2.2 = acc.2.2 := by
  rcases acc with ⟨best, gain, st⟩
  cases gain with
  | none => rfl
  | some g =>
    simp only [selStep]
    split <;> rfl

theorem foldl_selStep_preserves_state (log2 : ℚ → ℚ) (ce : ℚ) :
    ∀ (l : List String) (acc : Option String × Option ℚ × EEngine),
      (l.foldl (selStep log2 ce) acc).2.2 = acc.2.2 := by
  intro l
  induction l with
  | nil => intro acc; rfl
  | cons a l ih =>
    intro acc
    rw [List.foldl_cons, ih, selStep_preserves_state]

/-- Claim C8: expected-entropy computation and `select_next_symptom`
simulate the answer=1 and answer=0 posteriors purely hypothetically: after
either call the engine's posterior vector and the asked-set are exactly what
they were before (the threaded state is returned unchanged), for every
choice of the `log2` function. -/
theorem c8_selection_does_not_mutate_state (log2 : ℚ → ℚ) (st : EEngine)
    (s : String) :
    (computeExpectedEntropy log2 st s).2 = st ∧
    (selectNextSymptom log2 st).2 = st := by
  exact ⟨rfl, foldl_selStep_preserves_state log2 _ st.unasked (none, none, st)⟩

/-! ## Claims about the constraint module -/

/-- Claim C1: on any constraint checker knowing the symptoms `mild_fever`
and `fatigue`, registering `implication(mild_fever → fatigue)` and then
`mutual_exclusion(mild_fever, fatigue)` makes `check_consistency()` — a
static analysis over the registered constraint set alone, taking no
assignment — return not-ok together with at least one reported issue. -/
theorem c1_check_consistency_flags_contradiction (c : CSP)
    (h1 : "mild_fever" ∈ c.symptomList) (h2 : "fatigue" ∈ c.symptomList) :
    ∃ cA cB, c.add_dependency "mild_fever" "fatigue" = Except.ok cA ∧
      cA.add_mutual_exclusion "mild_fever" "fatigue" = Except.ok cB ∧
      cB.check_consistency.1 = false ∧ cB.check_consistency.2 ≠ [] := by
  have hd : c.add_dependency "mild_fever" "fatigue" = Except.ok
      { c with constraints := c.constraints ++ [("mild_fever", "->", "fatigue")] } := by
    rw [CSP.add_dependency, if_neg (not_not_intro h1), if_neg (not_not_intro h2)]
  have hx : CSP.add_mutual_exclusion
      { c with constraints := c.constraints ++ [("mild_fever", "->", "fatigue")] }
      "mild_fever" "fatigue" = Except.ok
      { c with constraints := (c.constraints ++ [("mild_fever", "->", "fatigue")]) ++
          [("mild_fever", "XOR", "fatigue")] } := by
    rw [CSP.add_mutual_exclusion, if_neg (not_not_intro h1), if_neg (not_not_intro h2)]
  set cB : CSP := { c with constraints :=
    (c.constraints ++ [("mild_fever", "->", "fatigue")]) ++
      [("mild_fever", "XOR", "fatigue")] } with hcB
  have hmemx : ("mild_fever", "XOR", "fatigue") ∈ cB.constraints := by
    simp [hcB]
  have hne : cB.check_consistency.2 ≠ [] := by
    apply List.ne_nil_of_mem
    apply List.mem_filterMap.mpr
    exact ⟨("mild_fever", "->", "fatigue"), by simp [hcB], by rw [if_pos ⟨rfl, hmemx⟩]⟩
  refine ⟨_, cB, hd, hx, ?_, hne⟩
  show cB.check_consistency.2.isEmpty = false
  rw [Bool.eq_false_iff]
  intro habs
  exact hne (List.isEmpty_iff.mp habs)

/-- Witness for C1 on a concrete checker holding those two symptoms. -/
theorem c1_check_consistency_flags_contradiction_witness :
    ∃ cA cB, CSP.add_dependency ⟨["mild_fever", "fatigue"], [], []⟩
        "mild_fever" "fatigue" = Except.ok cA ∧
      cA.add_mutual_exclusion "mild_fever" "fatigue" = Except.ok cB ∧
      cB.check_consistency.1 = false ∧ cB.check_consistency.2 ≠ [] :=
  c1_check_consistency_flags_contradiction ⟨["mild_fever", "fatigue"], [], []⟩
    (by simp) (by simp)

/-- Claim C7 (amended): the three registration operations only ever append
the recognized relations, so every reachable constraint list stores only
recognized relations and `is_valid_state` never raises (and never silently
skips) an unknown relation on it; the fatal unknown-relation error sits in
the check loop, not in registration — see the counterexample. -/
theorem c7_reachable_relations_recognized (kb : KB) (ops : List RegOp)
    (assign : List (String × Int)) :
    (∀ t ∈ (applyRegs (CSP.init kb) ops).constraints,
      t.2.1 = "->" ∨ t.2.1 = "XOR" ∨ t.2.1 = "requires") ∧
    (∃ res, (applyRegs (CSP.init kb) ops).is_valid_state assign = Except.ok res) := by
  have hdep : ∀ (c : CSP) (a b : String) (c2 : CSP),
      c.add_dependency a b = Except.ok c2 →
      c2.constraints = c.constraints ++ [(a, "->", b)] := by
    intro c a b c2 h
    rw [CSP.add_dependency] at h
    split at h
    · exact absurd h (by simp)
    · split at h
      · exact absurd h (by simp)
      · cases h
        rfl
  have hmut : ∀ (c : CSP) (a b : String) (c2 : CSP),
      c.add_mutual_exclusion a b = Except.ok c2 →
      c2.constraints = c.constraints ++ [(a, "XOR", b)] := by
    intro c a b c2 h
    rw [CSP.add_mutual_exclusion] at h
    split at h
    · exact absurd h (by simp)
    · split at h
      · exact absurd h (by simp)
      · cases h
        rfl
  have hreq : ∀ (c : CSP) (s d : String) (c2 : CSP),
      c.add_required_symptom_for_disease s d = Except.ok c2 →
      c2.constraints = c.constraints ++ [(d, "requires", s)] := by
    intro c s d c2 h
    rw [CSP.add_required_symptom_for_disease] at h
    split at h
    · exact absurd h (by simp)
    · split at h
      · exact absurd h (by simp)
      · cases h
        rfl
  have hstep : ∀ (c : CSP) (op : RegOp),
      (∀ t ∈ c.constraints, t.2.1 = "->" ∨ t.2.1 = "XOR" ∨ t.2.1 = "requires") →
      ∀ t ∈ (applyReg c op).constraints,
        t.2.1 = "->" ∨ t.2.1 = "XOR" ∨ t.2.1 = "requires" := by
    intro c op hc t ht
    cases op with
    | dep a b =>
      cases hres : c.add_dependency a b with
      | error m =>
        rw [applyReg, hres] at ht
        exact hc t ht
      | ok c2 =>
        rw [applyReg, hres, hdep c a b c2 hres] at ht
        rcases List.mem_append.mp ht with hm | hm
        · exact hc t hm
        · simp at hm
          subst hm
          exact Or.inl rfl
    | mutex a b =>
      cases hres : c.add_mutual_exclusion a b with
      | error m =>
        rw [applyReg, hres] at ht
        exact hc t ht
      | ok c2 =>
        rw [applyReg, hres, hmut c a b c2 hres] at ht
        rcases List.mem_append.mp ht with hm | hm
        · exact hc t hm
        · simp at hm
          subst hm
          exact Or.inr (Or.inl rfl)
    | req s d =>
      cases hres : c.add_required_symptom_for_disease s d with
      | error m =>
        rw [applyReg, hres] at ht
        exact hc t ht
      | ok c2 =>
        rw [applyReg, hres, hreq c s d c2 hres] at ht
        rcases List.mem_append.mp ht with hm | hm
        · exact hc t hm
        · simp at hm
          subst hm
          exact Or.inr (Or.inr rfl)
  have hall : ∀ (ops : List RegOp) (c : CSP),
      (∀ t ∈ c.constraints, t.2.1 = "->" ∨ t.2.1 = "XOR" ∨ t.2.1 = "requires") →
      ∀ t ∈ (applyRegs c ops).constraints,
        t.2.1 = "->" ∨ t.2.1 = "XOR" ∨ t.2.1 = "requires" := by
    intro ops
    induction ops with
    | nil => intro c hc; exact hc
    | cons op rest ih =>
      intro c hc
      exact ih (applyReg c op) (hstep c op hc)
  have hrec : ∀ t ∈ (applyRegs (CSP.init kb) ops).constraints,
      t.2.1 = "->" ∨ t.2.1 = "XOR" ∨ t.2.1 = "requires" :=
    hall ops (CSP.init kb) (by intro t ht; simp [CSP.init] at ht)
  refine ⟨hrec, ?_⟩
  obtain ⟨vss, hvss⟩ := mapE_ok_of_forall
    (checkConstraint (assign.filter (fun kv =>
      kv.1 ∈ (applyRegs (CSP.init kb) ops).symptomList ∨
      kv.1 ∈ (applyRegs (CSP.init kb) ops).diseaseList)))
    (applyRegs (CSP.init kb) ops).constraints
    (by
      intro t ht
      rcases hrec t ht with h | h | h
      · exact ⟨_, by rw [checkConstraint, if_pos h]⟩
      · exact ⟨_, by rw [checkConstraint, if_neg (by rw [h]; decide), if_pos h]⟩
      · exact ⟨_, by rw [checkConstraint, if_neg (by rw [h]; decide),
          if_neg (by rw [h]; decide), if_pos h]⟩)
  rw [CSP.is_valid_state, hvss]
  exact ⟨_, rfl⟩

/-- Counterexample for C7 as stated: the fatal error for an unknown
constraint relation is raised during `is_valid_state` (the check), not at
registration time — on a module holding an injected `(a, ??, b)` constraint
the check call itself raises `RuntimeError`. -/
theorem c7_cex_unknown_relation_raises_during_check :
    CSP.is_valid_state ⟨["a", "b"], [], [("a", "??", "b")]⟩ [] =
      Except.error "Unknown constraint relation ?? in constraint" := by
  rfl

end VGS
